import Mathlib

/-!
Shallow embedding of the retry/hook orchestration core of the `apiservice`
repository (src/src/index.ts, src/src/HookManager.ts, src/src/RetryManager.ts,
the CacheManager in src/src/types.ts, and the response handling in
src/src/HttpClient.ts), together with proofs settling the frozen claims.

The asynchronous environment (HTTP transport outcomes, auth-header
resolution, user-supplied hook handlers and callbacks, `Math.random`,
`Date.now`) is modelled by explicit oracles; every other piece of control
flow is translated statement by statement from the source.
-/

namespace ApiService

/-- `StatusCode` (src/src/types.ts): hooks are keyed by HTTP status. -/
abbrev StatusCode := Nat

/-- A patch object returned by a hook handler and merged into the next
attempt's parameters (`hookResult` in index.ts). -/
abbrev Patch := List (String × String)

/-- An error value flowing through the retry loop: `error?.status` is the
classifier (absent for network/credential errors), `tag` models object
identity so that "the same error is rethrown" is expressible. -/
structure ErrInfo where
  status : Option StatusCode
  tag : Nat
deriving DecidableEq

/-- JavaScript values as far as truthiness and equality matter here. -/
inductive JsValue
  | jsNull
  | obj (id : Nat)
  | str (s : String)
  | num (n : Int)
  | bool (b : Bool)
deriving DecidableEq

/-- JavaScript truthiness: `null`, `0`, `""` and `false` are falsy;
objects are truthy. -/
def JsValue.truthy : JsValue → Bool
  | .jsNull => false
  | .obj _ => true
  | .str s => s ≠ ""
  | .num n => n ≠ 0
  | .bool b => b

/-- `HookSettings` (src/src/index.ts / src/src/HookManager.ts field names):
the configuration record for one status classifier.  Presence of the
optional function fields is tracked by `has*` flags; the functions'
behaviour itself is supplied by the environment oracles. -/
structure Hook where
  shouldRetry : Bool
  useRetryDelay : Bool
  preventConcurrentCalls : Bool
  maxRetries : Option Nat
  hasHandler : Bool
  hasOnMaxRetriesExceeded : Bool
  hasOnHandlerError : Bool
deriving DecidableEq

/-- Outcome of an (async) hook handler: fulfilled with a patch or rejected. -/
abbrev HandlerOutcome := Except ErrInfo Patch

/-- `HookManager.hookPromises`: pending handler executions keyed by
`accountId-status` strings. -/
abbrev PendingMap := List (String × HandlerOutcome)

def mapLookup : PendingMap → String → Option HandlerOutcome
  | [], _ => none
  | (k1, v) :: rest, k => if k1 = k then some v else mapLookup rest k

def mapErase : PendingMap → String → PendingMap
  | [], _ => []
  | (k1, v) :: rest, k => if k1 = k then mapErase rest k else (k1, v) :: mapErase rest k

def mapInsert (m : PendingMap) (k : String) (v : HandlerOutcome) : PendingMap :=
  (k, v) :: mapErase m k

/-- `` `${accountId || 'default'}-${status}` `` (HookManager.ts line 35). -/
def hookKey (accountId : String) (status : StatusCode) : String :=
  (if accountId = "" then "default" else accountId) ++ "-" ++ toString status

/-- Outcome of one physical attempt of the loop body: either the request
resolves, or an error (auth resolution failure, missing credentials, or a
transport error carrying a status) is thrown. -/
inductive AttemptOutcome
  | success (v : JsValue)
  | failure (e : ErrInfo)

/-- Service configuration as visible to `makeRequestWithRetry`. -/
structure Config where
  hooks : StatusCode → Option Hook
  defaultMaxRetries : Nat
  maxAttempts : Nat
  accountId : String

/-- Environment oracles: the outcome of the k-th physical attempt, the
outcome of the handler invocation started at attempt k, and the outcomes of
the two best-effort callbacks (each is invoked at most once per call). -/
structure Env where
  attemptOutcome : Nat → AttemptOutcome
  handlerOutcome : Nat → HandlerOutcome
  onMaxRetriesExceeded : Except ErrInfo Unit
  onHandlerError : Except ErrInfo Unit

/-- Result of `HookManager.processHook`: the returned patch (`none` models
the JS `null` returned when no hook/handler exists), the pending map after
the call, and invocation counters for the handler and `onHandlerError`. -/
structure PHResult where
  result : Except ErrInfo (Option Patch)
  pending : PendingMap
  handlerInvocations : Nat
  handlerErrorCbFires : Nat

/-- The `catch (hookError)` block of `processHook` (HookManager.ts lines
54-62): `onHandlerError` is awaited with no surrounding try, so an error it
throws escapes instead of the original `hookError`. -/
def phCatch (h : Hook) (env : Env) (pending : PendingMap) (e : ErrInfo) (inv : Nat) : PHResult :=
  if h.hasOnHandlerError then
    match env.onHandlerError with
    | .ok _ => ⟨.error e, pending, inv, 1⟩
    | .error e2 => ⟨.error e2, pending, inv, 1⟩
  else ⟨.error e, pending, inv, 0⟩

/-- `HookManager.processHook` (HookManager.ts lines 27-63).  In the
`preventConcurrentCalls` branch the stored promise's eventual outcome is the
handler's outcome; `delete this.hookPromises[hookKey]` runs only when the
`await` does not throw, i.e. only for fulfilled promises. -/
def processHook (cfg : Config) (env : Env) (pending : PendingMap) (attemptNo : Nat)
    (accountId : String) (status : StatusCode) : PHResult :=
  match cfg.hooks status with
  | none => ⟨.ok none, pending, 0, 0⟩
  | some h =>
    if h.hasHandler then
      let key := hookKey accountId status
      if h.preventConcurrentCalls then
        match mapLookup pending key with
        | none =>
          match env.handlerOutcome attemptNo with
          | .ok p => ⟨.ok (some p), mapErase (mapInsert pending key (.ok p)) key, 1, 0⟩
          | .error e => phCatch h env (mapInsert pending key (.error e)) e 1
        | some (.ok p) => ⟨.ok (some p), mapErase pending key, 0, 0⟩
        | some (.error e) => phCatch h env pending e 0
      else
        match env.handlerOutcome attemptNo with
        | .ok p => ⟨.ok (some p), pending, 1, 0⟩
        | .error e => phCatch h env pending e 1
    else ⟨.ok none, pending, 0, 0⟩

/-- The error rejected by `makeRequestWithRetry`: either a rethrown error
object, or the distinct `Exceeded maximum attempts` error constructed after
the loop (index.ts line 279). -/
inductive CallError
  | err (e : ErrInfo)
  | exceededMaxAttempts
deriving DecidableEq

/-- Observable outcome of one `makeRequestWithRetry` run: the settled
result, the last write to `accountManager.setLastRequestFailed` for this
account (`none` = never written), the number of loop iterations (physical
attempts), handler invocations, `onMaxRetriesExceeded` invocations, the
final pending-promise map, and the final per-status retry counters. -/
structure RunResult where
  result : Except CallError JsValue
  lastFailedWrite : Option Bool
  attempts : Nat
  handlerInvocations : Nat
  exhaustedCbFires : Nat
  pending : PendingMap
  retries : StatusCode → Nat

/-- The `while (attempts < this.maxAttempts)` loop of `makeRequestWithRetry`
(index.ts lines 207-279), with `fuel = maxAttempts - attempts`.  Backoff
delays (`calculateAndDelay`) only suspend and are not observable here. -/
def runLoop (cfg : Config) (env : Env) : Nat → Nat → (StatusCode → Nat) → PendingMap → RunResult
  | 0, _, retries, pending =>
      { result := .error .exceededMaxAttempts, lastFailedWrite := some true,
        attempts := 0, handlerInvocations := 0, exhaustedCbFires := 0,
        pending := pending, retries := retries }
  | fuel + 1, a, retries, pending =>
      match env.attemptOutcome (a + 1) with
      | .success v =>
          { result := .ok v, lastFailedWrite := some false, attempts := 1,
            handlerInvocations := 0, exhaustedCbFires := 0,
            pending := pending, retries := retries }
      | .failure e =>
          match e.status with
          | none =>
              { result := .error (.err e), lastFailedWrite := none, attempts := 1,
                handlerInvocations := 0, exhaustedCbFires := 0,
                pending := pending, retries := retries }
          | some s =>
              match cfg.hooks s with
              | none =>
                  { result := .error (.err e), lastFailedWrite := none, attempts := 1,
                    handlerInvocations := 0, exhaustedCbFires := 0,
                    pending := pending, retries := retries }
              | some h =>
                  if h.shouldRetry then
                    let cnt := retries s + 1
                    let retries2 := fun t => if t = s then retries s + 1 else retries t
                    let maxR := h.maxRetries.getD cfg.defaultMaxRetries
                    if cnt > maxR then
                      match (if h.hasOnMaxRetriesExceeded then env.onMaxRetriesExceeded
                             else Except.ok ()) with
                      | .error e2 =>
                          { result := .error (.err e2), lastFailedWrite := none, attempts := 1,
                            handlerInvocations := 0,
                            exhaustedCbFires := if h.hasOnMaxRetriesExceeded then 1 else 0,
                            pending := pending, retries := retries2 }
                      | .ok _ =>
                          { result := .error (.err e), lastFailedWrite := some true, attempts := 1,
                            handlerInvocations := 0,
                            exhaustedCbFires := if h.hasOnMaxRetriesExceeded then 1 else 0,
                            pending := pending, retries := retries2 }
                    else
                      let ph := processHook cfg env pending (a + 1) cfg.accountId s
                      match ph.result with
                      | .error he =>
                          { result := .error (.err he), lastFailedWrite := some true, attempts := 1,
                            handlerInvocations := ph.handlerInvocations, exhaustedCbFires := 0,
                            pending := ph.pending, retries := retries2 }
                      | .ok _ =>
                          let r := runLoop cfg env fuel (a + 1) retries2 ph.pending
                          { result := r.result, lastFailedWrite := r.lastFailedWrite,
                            attempts := r.attempts + 1,
                            handlerInvocations := r.handlerInvocations + ph.handlerInvocations,
                            exhaustedCbFires := r.exhaustedCbFires,
                            pending := r.pending, retries := r.retries }
                  else
                    { result := .error (.err e), lastFailedWrite := none, attempts := 1,
                      handlerInvocations := 0, exhaustedCbFires := 0,
                      pending := pending, retries := retries }

/-- `makeRequestWithRetry` on a fresh call: zero attempts so far, all
per-status counters zero, empty pending-promise map. -/
def makeRequestWithRetry (cfg : Config) (env : Env) : RunResult :=
  runLoop cfg env cfg.maxAttempts 0 (fun _ => 0) []

/-- `HookManager.shouldRetry` (lines 78-81): `!!hook && !!hook.shouldRetry`,
applied to the possibly-absent `error?.status`. -/
def shouldRetryB (cfg : Config) (st : Option StatusCode) : Bool :=
  match st with
  | none => false
  | some s =>
    match cfg.hooks s with
    | none => false
    | some h => h.shouldRetry

/-! ### Setup and the default 401 hook (index.ts lines 52-125) -/

/-- The settings record built by `createDefaultAuthRefreshHandler`
(index.ts lines 100-125): the handler and `onMaxRetriesExceeded` are
present, `onHandlerError` is not. -/
def defaultAuthRefreshHook : Hook :=
  { shouldRetry := true, useRetryDelay := true, preventConcurrentCalls := true,
    maxRetries := some 1, hasHandler := true, hasOnMaxRetriesExceeded := true,
    hasOnHandlerError := false }

/-- Body of the default 401 handler (index.ts lines 106-120): throw if the
provider has no `refresh`, otherwise await `refresh` (its rejection is
rethrown by the inner catch) and resolve with the empty patch `{}`. -/
def defaultAuthRefreshHandlerBody (hasRefresh : Bool)
    (refreshOutcome : Except ErrInfo Unit) : Except ErrInfo Patch :=
  if hasRefresh then
    match refreshOutcome with
    | .ok _ => .ok []
    | .error e => .error e
  else .error ⟨none, 0⟩

/-- The hook map produced by `setup` (index.ts lines 69-89).  The input maps
a status to `none` when the caller supplied no entry, to `some none` for an
explicit `null` entry, and to `some (some h)` for a configured hook.  The
default 401 hook is added only when `hooks[401] === undefined` and the auth
provider has a `refresh` function; the user-hook loop then copies only
truthy entries. -/
def setupFinalHooks (hasRefresh : Bool) (hooks : StatusCode → Option (Option Hook)) :
    StatusCode → Option Hook :=
  fun s =>
    match hooks s with
    | some (some h) => some h
    | some none => none
    | none => if s = 401 ∧ hasRefresh then some defaultAuthRefreshHook else none

/-! ### RetryManager delay strategy (RetryManager.ts lines 13-68) -/

/-- The `Retry-After` header of the failing response, pre-classified by the
JS parse order of `getRetryAfterValue`: `numeric n` stands for a header
string whose `parseInt` is the (non-NaN) number `n`; `dateMs t` for a
non-numeric string parsed by `new Date` to absolute time `t`; `unparseable`
for a string failing both parses; `absent` also covers a missing `headers.get`
and the falsy header string. -/
inductive RetryAfterHeader
  | absent
  | numeric (n : Int)
  | dateMs (t : Int)
  | unparseable
deriving DecidableEq

/-- `RetryManager.getRetryAfterValue` (lines 48-68): seconds become
milliseconds; a date yields `deadline - now` only when in the future. -/
def getRetryAfterValue (hdr : RetryAfterHeader) (now : Int) : Option Int :=
  match hdr with
  | .absent => none
  | .numeric n => some (n * 1000)
  | .dateMs t => if now < t then some (t - now) else none
  | .unparseable => none

/-- `Math.floor(Math.random() * (1000 * 2^(attempt-1)))`, with the random
draw modelled by the oracle `rand` reduced into range. -/
def exponentialJitter (attempt : Nat) (rand : Nat) : Int :=
  Int.ofNat (rand % (1000 * 2 ^ (attempt - 1)))

/-- `defaultDelayStrategy.calculate` (RetryManager.ts lines 13-24):
`if (retryAfter) return retryAfter` — note the JS truthiness test, under
which a parsed value of `0` falls through to the jitter formula. -/
def defaultDelayStrategyCalculate (attempt : Nat) (hdr : RetryAfterHeader)
    (now : Int) (rand : Nat) : Int :=
  match getRetryAfterValue hdr now with
  | some v => if v = 0 then exponentialJitter attempt rand else v
  | none => exponentialJitter attempt rand

/-! ### CacheManager and the `call` wrapper (types.ts lines 83-141,
index.ts lines 144-178) -/

/-- Parameters relevant to the cache identity of a call.  `queryParams`
holds the contents of the `URLSearchParams` object when one is passed. -/
structure CallParams where
  accountId : String
  method : String
  route : String
  base : String
  queryParams : Option (List (String × String))
  body : Option JsValue
  data : Option JsValue
  cacheTime : Option Nat
deriving DecidableEq

/-- JS `body || data`: `data` is used when `body` is absent or falsy. -/
def jsOr (body data : Option JsValue) : Option JsValue :=
  match body with
  | some v => if v.truthy then some v else data
  | none => data

/-- The `JSON.stringify` image of the key object built by
`CacheManager.getRequestKey` (types.ts lines 116-126).  A `URLSearchParams`
instance has no enumerable own properties and no `toJSON`, so
`JSON.stringify` renders it as `{}`: the serialized key records only
whether `queryParams` was present (`undefined` fields are omitted),
never its contents. -/
structure RequestKey where
  accountId : String
  method : String
  route : String
  base : String
  queryParamsSerialized : Option Unit
  body : Option JsValue
deriving DecidableEq

/-- `CacheManager.getRequestKey` (types.ts lines 116-126). -/
def getRequestKey (p : CallParams) : RequestKey :=
  { accountId := p.accountId, method := p.method, route := p.route, base := p.base,
    queryParamsSerialized := p.queryParams.map (fun _ => ()),
    body := jsOr p.body p.data }

structure CacheEntry where
  data : JsValue
  timestamp : Nat
deriving DecidableEq

abbrev Cache := List (RequestKey × CacheEntry)

def cacheLookup : Cache → RequestKey → Option CacheEntry
  | [], _ => none
  | (k1, v) :: rest, k => if k1 = k then some v else cacheLookup rest k

def cacheErase : Cache → RequestKey → Cache
  | [], _ => []
  | (k1, v) :: rest, k => if k1 = k then cacheErase rest k else (k1, v) :: cacheErase rest k

/-- `Map.set` overwrites the entry for the key. -/
def cacheInsert (c : Cache) (k : RequestKey) (v : CacheEntry) : Cache :=
  (k, v) :: cacheErase c k

/-- `CacheManager.getFromCache` (types.ts lines 90-100); a miss or an
expired entry returns JS `null`. -/
def getFromCache (cache : Cache) (p : CallParams) (svcCacheTime : Nat) (now : Nat) : JsValue :=
  let ct := p.cacheTime.getD svcCacheTime
  match cacheLookup cache (getRequestKey p) with
  | some c => if now - c.timestamp < ct then c.data else .jsNull
  | none => .jsNull

/-- `CacheManager.saveToCache` (types.ts lines 105-111). -/
def saveToCache (cache : Cache) (p : CallParams) (d : JsValue) (now : Nat) : Cache :=
  cacheInsert cache (getRequestKey p) ⟨d, now⟩

/-- Observable outcome of one `call` invocation. -/
structure CallStep where
  result : Except CallError JsValue
  cache : Cache
  transportInvoked : Bool

/-- The cache-relevant skeleton of `ApiService.call` (index.ts lines
166-177): return a truthy cached value without invoking the transport;
otherwise run `makeRequestWithRetry` (its settled result is the
`transportResult` parameter) and cache the result on success only (a
rejection propagates before `saveToCache`). -/
def callOnce (cache : Cache) (p : CallParams) (svcCacheTime : Nat) (now : Nat)
    (transportResult : Except CallError JsValue) : CallStep :=
  let cached := getFromCache cache p svcCacheTime now
  if cached.truthy then ⟨.ok cached, cache, false⟩
  else
    match transportResult with
    | .ok v => ⟨.ok v, saveToCache cache p v now, true⟩
    | .error e => ⟨.error e, cache, true⟩

/-! ### Concrete scenarios used to instantiate the claims -/

/-- Scenario for C1: a 500 hook with `maxRetries = 2`, every attempt failing
with status 500, every handler run succeeding, callbacks completing. -/
def hookC1 : Hook :=
  { shouldRetry := true, useRetryDelay := false, preventConcurrentCalls := true,
    maxRetries := some 2, hasHandler := true, hasOnMaxRetriesExceeded := true,
    hasOnHandlerError := false }

def cfgC1 : Config :=
  { hooks := fun st => if st = 500 then some hookC1 else none,
    defaultMaxRetries := 4, maxAttempts := 10, accountId := "acc" }

def envC1 : Env :=
  { attemptOutcome := fun k => .failure ⟨some 500, k⟩,
    handlerOutcome := fun _ => .ok [], onMaxRetriesExceeded := .ok (),
    onHandlerError := .ok () }

/-- Scenario for C2: no hooks configured, the single attempt fails with a
500 transport error (counterexample), or succeeds (witness). -/
def cfgC2 : Config :=
  { hooks := fun _ => none, defaultMaxRetries := 4, maxAttempts := 10, accountId := "acc" }

def envC2fail : Env :=
  { attemptOutcome := fun _ => .failure ⟨some 500, 1⟩,
    handlerOutcome := fun _ => .ok [], onMaxRetriesExceeded := .ok (),
    onHandlerError := .ok () }

def envC2ok : Env :=
  { attemptOutcome := fun _ => .success (.obj 1),
    handlerOutcome := fun _ => .ok [], onMaxRetriesExceeded := .ok (),
    onHandlerError := .ok () }

/-- Scenario for C3: no hooks, first attempt fails with status 500. -/
def cfgC3 : Config :=
  { hooks := fun _ => none, defaultMaxRetries := 4, maxAttempts := 10, accountId := "acc" }

def envC3 : Env :=
  { attemptOutcome := fun _ => .failure ⟨some 500, 1⟩,
    handlerOutcome := fun _ => .ok [], onMaxRetriesExceeded := .ok (),
    onHandlerError := .ok () }

/-- Scenario for C4: a 401 hook with `preventConcurrentCalls`, whose handler
rejects (counterexample) or succeeds (witness). -/
def hookC4 : Hook :=
  { shouldRetry := true, useRetryDelay := false, preventConcurrentCalls := true,
    maxRetries := some 1, hasHandler := true, hasOnMaxRetriesExceeded := false,
    hasOnHandlerError := false }

def cfgC4 : Config :=
  { hooks := fun st => if st = 401 then some hookC4 else none,
    defaultMaxRetries := 4, maxAttempts := 10, accountId := "acc" }

def envC4fail : Env :=
  { attemptOutcome := fun _ => .failure ⟨some 401, 1⟩,
    handlerOutcome := fun _ => .error ⟨some 401, 5⟩, onMaxRetriesExceeded := .ok (),
    onHandlerError := .ok () }

def envC4ok : Env :=
  { attemptOutcome := fun _ => .failure ⟨some 401, 1⟩,
    handlerOutcome := fun _ => .ok [("h", "v")], onMaxRetriesExceeded := .ok (),
    onHandlerError := .ok () }

/-- Scenario for C5: a 500 hook with `maxRetries = 0` and both best-effort
callbacks configured; in the counterexample environment both callbacks
throw fresh errors (tags 99 and 77) distinct from the attempt error (tag 1)
and the handler error (tag 7). -/
def hookC5 : Hook :=
  { shouldRetry := true, useRetryDelay := false, preventConcurrentCalls := false,
    maxRetries := some 0, hasHandler := true, hasOnMaxRetriesExceeded := true,
    hasOnHandlerError := true }

def cfgC5 : Config :=
  { hooks := fun st => if st = 500 then some hookC5 else none,
    defaultMaxRetries := 4, maxAttempts := 10, accountId := "acc" }

def envC5throw : Env :=
  { attemptOutcome := fun _ => .failure ⟨some 500, 1⟩,
    handlerOutcome := fun _ => .error ⟨some 500, 7⟩,
    onMaxRetriesExceeded := .error ⟨none, 99⟩, onHandlerError := .error ⟨none, 77⟩ }

def envC5ok : Env :=
  { attemptOutcome := fun _ => .failure ⟨some 500, 1⟩,
    handlerOutcome := fun _ => .error ⟨some 500, 7⟩,
    onMaxRetriesExceeded := .ok (), onHandlerError := .ok () }

/-- Hook maps for the C6 witness: no entries at all, and an explicit `null`
entry for 401. -/
def hooksC6none : StatusCode → Option (Option Hook) := fun _ => none

def hooksC6null : StatusCode → Option (Option Hook) :=
  fun s => if s = 401 then some none else none

/-- Scenario for C7: `maxAttempts = 2` with a generous 500 hook, every
attempt failing with 500 and the handler succeeding, so the global ceiling
is hit before the per-status budget. -/
def hookC7 : Hook :=
  { shouldRetry := true, useRetryDelay := false, preventConcurrentCalls := false,
    maxRetries := some 5, hasHandler := true, hasOnMaxRetriesExceeded := false,
    hasOnHandlerError := false }

def cfgC7 : Config :=
  { hooks := fun st => if st = 500 then some hookC7 else none,
    defaultMaxRetries := 4, maxAttempts := 2, accountId := "acc" }

def envC7 : Env :=
  { attemptOutcome := fun k => .failure ⟨some 500, k⟩,
    handlerOutcome := fun _ => .ok [], onMaxRetriesExceeded := .ok (),
    onHandlerError := .ok () }

/-- C9 failing input: two calls identical except for the contents of their
`URLSearchParams` query parameters. -/
def pC9a : CallParams :=
  { accountId := "acc", method := "GET", route := "/users", base := "https://api.example.com",
    queryParams := some [("a", "1")], body := none, data := none, cacheTime := none }

def pC9b : CallParams :=
  { accountId := "acc", method := "GET", route := "/users", base := "https://api.example.com",
    queryParams := some [("a", "2")], body := none, data := none, cacheTime := none }

/-- C10 witness call parameters. -/
def pC10 : CallParams :=
  { accountId := "acc", method := "GET", route := "/r", base := "b",
    queryParams := none, body := none, data := none, cacheTime := none }

/-! ### Helper lemmas -/

theorem mapLookup_mapErase_self (m : PendingMap) (k : String) :
    mapLookup (mapErase m k) k = none := by
  induction m with
  | nil => rfl
  | cons hd tl ih =>
    obtain ⟨k1, v⟩ := hd
    by_cases h : k1 = k
    · simpa [mapErase, h] using ih
    · simp [mapErase, mapLookup, h, ih]

theorem cacheLookup_cacheInsert_self (c : Cache) (k : RequestKey) (v : CacheEntry) :
    cacheLookup (cacheInsert c k v) k = some v := by
  simp [cacheInsert, cacheLookup]

/-- When the handler run started at attempt `k` fulfills and no pending
promise is stored for the key, `processHook` returns a fulfilled result and
leaves no pending entry behind. -/
theorem processHook_handler_ok (cfg : Config) (env : Env) (pending : PendingMap) (k : Nat)
    (acc : String) (s : StatusCode) (p : Patch)
    (hout : env.handlerOutcome k = .ok p)
    (hpend : mapLookup pending (hookKey acc s) = none) :
    (∃ op, (processHook cfg env pending k acc s).result = .ok op) ∧
    mapLookup (processHook cfg env pending k acc s).pending (hookKey acc s) = none := by
  unfold processHook
  cases hh : cfg.hooks s with
  | none => exact ⟨⟨none, rfl⟩, hpend⟩
  | some h =>
    by_cases hhand : h.hasHandler
    · by_cases hpc : h.preventConcurrentCalls
      · simp only [hhand, if_true, hpc, hpend, hout]
        exact ⟨⟨some p, rfl⟩, mapLookup_mapErase_self _ _⟩
      · simp only [hhand, if_true, hpc, if_false, hout]
        exact ⟨⟨some p, rfl⟩, hpend⟩
    · simp only [hhand, if_false]
      exact ⟨⟨none, rfl⟩, hpend⟩

/-- One loop iteration in the exhaustion case (per-status counter about to
exceed the resolved ceiling), with the callback completing normally. -/
theorem runLoop_step_exhaust (cfg : Config) (env : Env) (fuel a : Nat)
    (retries : StatusCode → Nat) (pending : PendingMap) (s : StatusCode) (h : Hook)
    (e : ErrInfo)
    (hA : env.attemptOutcome (a + 1) = .failure e) (hS : e.status = some s)
    (hh : cfg.hooks s = some h) (hsr : h.shouldRetry = true)
    (hgt : retries s + 1 > h.maxRetries.getD cfg.defaultMaxRetries)
    (hcb : h.hasOnMaxRetriesExceeded = true) (hok : env.onMaxRetriesExceeded = .ok ()) :
    runLoop cfg env (fuel + 1) a retries pending =
      { result := .error (.err e), lastFailedWrite := some true, attempts := 1,
        handlerInvocations := 0, exhaustedCbFires := 1,
        pending := pending, retries := fun t => if t = s then retries s + 1 else retries t } := by
  simp only [runLoop, hA, hS, hh, hsr, if_true, hcb, hok]
  rw [if_pos hgt]

/-- One loop iteration in the recovery case (counter within budget and a
fulfilled `processHook` result): the loop recurses. -/
theorem runLoop_step_continue (cfg : Config) (env : Env) (fuel a : Nat)
    (retries : StatusCode → Nat) (pending : PendingMap) (s : StatusCode) (h : Hook)
    (e : ErrInfo) (op : Option Patch)
    (hA : env.attemptOutcome (a + 1) = .failure e) (hS : e.status = some s)
    (hh : cfg.hooks s = some h) (hsr : h.shouldRetry = true)
    (hle : retries s + 1 ≤ h.maxRetries.getD cfg.defaultMaxRetries)
    (hph : (processHook cfg env pending (a + 1) cfg.accountId s).result = .ok op) :
    runLoop cfg env (fuel + 1) a retries pending =
      { result := (runLoop cfg env fuel (a + 1)
            (fun t => if t = s then retries s + 1 else retries t)
            (processHook cfg env pending (a + 1) cfg.accountId s).pending).result,
        lastFailedWrite := (runLoop cfg env fuel (a + 1)
            (fun t => if t = s then retries s + 1 else retries t)
            (processHook cfg env pending (a + 1) cfg.accountId s).pending).lastFailedWrite,
        attempts := (runLoop cfg env fuel (a + 1)
            (fun t => if t = s then retries s + 1 else retries t)
            (processHook cfg env pending (a + 1) cfg.accountId s).pending).attempts + 1,
        handlerInvocations := (runLoop cfg env fuel (a + 1)
            (fun t => if t = s then retries s + 1 else retries t)
            (processHook cfg env pending (a + 1) cfg.accountId s).pending).handlerInvocations +
          (processHook cfg env pending (a + 1) cfg.accountId s).handlerInvocations,
        exhaustedCbFires := (runLoop cfg env fuel (a + 1)
            (fun t => if t = s then retries s + 1 else retries t)
            (processHook cfg env pending (a + 1) cfg.accountId s).pending).exhaustedCbFires,
        pending := (runLoop cfg env fuel (a + 1)
            (fun t => if t = s then retries s + 1 else retries t)
            (processHook cfg env pending (a + 1) cfg.accountId s).pending).pending,
        retries := (runLoop cfg env fuel (a + 1)
            (fun t => if t = s then retries s + 1 else retries t)
            (processHook cfg env pending (a + 1) cfg.accountId s).pending).retries } := by
  simp only [runLoop, hA, hS, hh, hsr, if_true]
  rw [if_neg (by omega)]
  simp only [hph]

/-- Exhaustion unwinding: with `d` budget slots left for status `s`, a run
in which every attempt fails with `s`, every handler run fulfills and the
exhaustion callback completes ends after exactly `d + 1` further attempts,
firing the callback once and rethrowing the last attempt's error. -/
theorem c1_aux (cfg : Config) (env : Env) (s : StatusCode) (h : Hook) (N : Nat)
    (errs : Nat → ErrInfo)
    (hh : cfg.hooks s = some h) (hsr : h.shouldRetry = true)
    (hmr : h.maxRetries = some N) (hcb : h.hasOnMaxRetriesExceeded = true)
    (hfail : ∀ k, env.attemptOutcome k = .failure (errs k))
    (hst : ∀ k, (errs k).status = some s)
    (hhandler : ∀ k, ∃ p, env.handlerOutcome k = .ok p)
    (hok : env.onMaxRetriesExceeded = .ok ()) :
    ∀ d a retries pending fuel, retries s = N - d → d ≤ N → d + 1 ≤ fuel →
      mapLookup pending (hookKey cfg.accountId s) = none →
      (runLoop cfg env fuel a retries pending).result = .error (.err (errs (a + d + 1))) ∧
      (runLoop cfg env fuel a retries pending).attempts = d + 1 ∧
      (runLoop cfg env fuel a retries pending).exhaustedCbFires = 1 := by
  intro d
  induction d with
  | zero =>
    intro a retries pending fuel hret hdN hfuel hpend
    obtain ⟨f, rfl⟩ : ∃ f, fuel = f + 1 := ⟨fuel - 1, by omega⟩
    rw [runLoop_step_exhaust cfg env f a retries pending s h (errs (a + 1))
      (hfail (a + 1)) (hst (a + 1)) hh hsr (by rw [hmr]; simp; omega) hcb hok]
    refine ⟨?_, rfl, rfl⟩
    simp
  | succ d ih =>
    intro a retries pending fuel hret hdN hfuel hpend
    obtain ⟨f, rfl⟩ : ∃ f, fuel = f + 1 := ⟨fuel - 1, by omega⟩
    obtain ⟨p, hp⟩ := hhandler (a + 1)
    obtain ⟨⟨op, hop⟩, hpend2⟩ :=
      processHook_handler_ok cfg env pending (a + 1) cfg.accountId s p hp hpend
    rw [runLoop_step_continue cfg env f a retries pending s h (errs (a + 1)) op
      (hfail (a + 1)) (hst (a + 1)) hh hsr (by rw [hmr]; simp; omega) hop]
    have hret2 : (fun t => if t = s then retries s + 1 else retries t) s = N - d := by
      simp [hret]; omega
    obtain ⟨ih1, ih2, ih3⟩ := ih (a + 1)
      (fun t => if t = s then retries s + 1 else retries t)
      (processHook cfg env pending (a + 1) cfg.accountId s).pending f
      hret2 (by omega) (by omega) hpend2
    refine ⟨?_, ?_, ?_⟩
    · simp only [ih1]
      have : a + 1 + d + 1 = a + (d + 1) + 1 := by omega
      rw [this]
    · simp only [ih2]
    · simp only [ih3]

/-- C1: with a hook for status `s` having `shouldRetry = true`,
`maxRetries = N` and an `onMaxRetriesExceeded` callback, `N + 1` within the
global attempts ceiling, every physical attempt failing with status `s`,
every handler run fulfilling and the callback completing normally, the
logical call performs exactly `N + 1` physical attempts, fires
`onMaxRetriesExceeded` exactly once, and rejects with the error thrown by
the last attempt (index.ts lines 242-252, HookManager.ts lines 68-73). -/
theorem c1_retry_exhaustion (cfg : Config) (env : Env) (s : StatusCode) (h : Hook) (N : Nat)
    (errs : Nat → ErrInfo)
    (hh : cfg.hooks s = some h) (hsr : h.shouldRetry = true)
    (hmr : h.maxRetries = some N) (hcb : h.hasOnMaxRetriesExceeded = true)
    (hN : N + 1 ≤ cfg.maxAttempts)
    (hfail : ∀ k, env.attemptOutcome k = .failure (errs k))
    (hst : ∀ k, (errs k).status = some s)
    (hhandler : ∀ k, ∃ p, env.handlerOutcome k = .ok p)
    (hok : env.onMaxRetriesExceeded = .ok ()) :
    (makeRequestWithRetry cfg env).result = .error (.err (errs (N + 1))) ∧
    (makeRequestWithRetry cfg env).attempts = N + 1 ∧
    (makeRequestWithRetry cfg env).exhaustedCbFires = 1 := by
  unfold makeRequestWithRetry
  have := c1_aux cfg env s h N errs hh hsr hmr hcb hfail hst hhandler hok
    N 0 (fun _ => 0) [] cfg.maxAttempts (by simp) le_rfl hN rfl
  simpa using this

/-- C1 witness: `maxRetries = 2` on status 500 with every attempt failing
with 500 yields 3 attempts, one callback invocation, and rejection with the
third attempt's error. -/
theorem c1_retry_exhaustion_witness :
    (makeRequestWithRetry cfgC1 envC1).result = .error (.err ⟨some 500, 3⟩) ∧
    (makeRequestWithRetry cfgC1 envC1).attempts = 3 ∧
    (makeRequestWithRetry cfgC1 envC1).exhaustedCbFires = 1 :=
  c1_retry_exhaustion cfgC1 envC1 500 hookC1 2 (fun k => ⟨some 500, k⟩)
    rfl rfl rfl rfl (by decide) (fun _ => rfl) (fun _ => rfl)
    (fun _ => ⟨[], rfl⟩) rfl

/-- C3: when the first physical attempt fails with a status for which
`HookManager.shouldRetry` is false (no hook, or `shouldRetry = false`), the
call rejects with that original error after exactly one attempt, the hook
handler is never invoked, and no per-status retry counter is incremented
(index.ts lines 234-243, HookManager.ts lines 78-81). -/
theorem c3_no_hook_single_attempt (cfg : Config) (env : Env) (e : ErrInfo)
    (hmax : 1 ≤ cfg.maxAttempts)
    (hfail : env.attemptOutcome 1 = .failure e)
    (hnr : shouldRetryB cfg e.status = false) :
    (makeRequestWithRetry cfg env).result = .error (.err e) ∧
    (makeRequestWithRetry cfg env).attempts = 1 ∧
    (makeRequestWithRetry cfg env).handlerInvocations = 0 ∧
    ∀ t, (makeRequestWithRetry cfg env).retries t = 0 := by
  unfold makeRequestWithRetry
  obtain ⟨f, hf⟩ : ∃ f, cfg.maxAttempts = f + 1 := ⟨cfg.maxAttempts - 1, by omega⟩
  rw [hf]
  simp only [runLoop, Nat.zero_add, hfail]
  cases hS : e.status with
  | none => simp [hS]
  | some s =>
    cases hh : cfg.hooks s with
    | none => simp [hS, hh]
    | some h =>
      have hsr : h.shouldRetry = false := by
        simpa [shouldRetryB, hS, hh] using hnr
      simp [hS, hh, hsr]

/-- C3 witness: a 500 failure with no hooks configured rejects after one
attempt, with no handler invocation and a zero retry counter for 500. -/
theorem c3_no_hook_single_attempt_witness :
    (makeRequestWithRetry cfgC3 envC3).result = .error (.err ⟨some 500, 1⟩) ∧
    (makeRequestWithRetry cfgC3 envC3).attempts = 1 ∧
    (makeRequestWithRetry cfgC3 envC3).handlerInvocations = 0 ∧
    (makeRequestWithRetry cfgC3 envC3).retries 500 = 0 := by
  obtain ⟨h1, h2, h3, h4⟩ :=
    c3_no_hook_single_attempt cfgC3 envC3 ⟨some 500, 1⟩ (by decide) rfl rfl
  exact ⟨h1, h2, h3, h4 500⟩

/-- Loop invariants: the attempt count never exceeds the remaining fuel;
the ceiling error always comes with a failed-flag write; `failed = false`
is written exactly on success; and a run that never writes the flag ends in
a rethrown error that either had no retry-willing hook or was thrown by
`onMaxRetriesExceeded` itself. -/
theorem runLoop_invariants (cfg : Config) (env : Env) :
    ∀ fuel a retries pending,
      (runLoop cfg env fuel a retries pending).attempts ≤ fuel ∧
      ((runLoop cfg env fuel a retries pending).result = .error .exceededMaxAttempts →
        (runLoop cfg env fuel a retries pending).lastFailedWrite = some true) ∧
      (∀ v, (runLoop cfg env fuel a retries pending).result = .ok v →
        (runLoop cfg env fuel a retries pending).lastFailedWrite = some false) ∧
      ((runLoop cfg env fuel a retries pending).lastFailedWrite = some false →
        ∃ v, (runLoop cfg env fuel a retries pending).result = .ok v) ∧
      ((runLoop cfg env fuel a retries pending).lastFailedWrite = none →
        ∃ e2, (runLoop cfg env fuel a retries pending).result = .error (.err e2) ∧
          (shouldRetryB cfg e2.status = false ∨ env.onMaxRetriesExceeded = .error e2)) := by
  intro fuel
  induction fuel with
  | zero =>
    intro a retries pending
    simp [runLoop]
  | succ f ih =>
    intro a retries pending
    cases hA : env.attemptOutcome (a + 1) with
    | success v => simp [runLoop, hA]
    | failure e =>
      cases hS : e.status with
      | none =>
        simp only [runLoop, hA, hS]
        refine ⟨by simp, by simp, by simp, by simp, ?_⟩
        intro _
        exact ⟨e, rfl, Or.inl (by simp [shouldRetryB, hS])⟩
      | some s =>
        cases hh : cfg.hooks s with
        | none =>
          simp only [runLoop, hA, hS, hh]
          refine ⟨by simp, by simp, by simp, by simp, ?_⟩
          intro _
          exact ⟨e, rfl, Or.inl (by simp [shouldRetryB, hS, hh])⟩
        | some h =>
          by_cases hsr : h.shouldRetry
          · simp only [runLoop, hA, hS, hh, hsr, if_true]
            by_cases hgt : retries s + 1 > h.maxRetries.getD cfg.defaultMaxRetries
            · rw [if_pos hgt]
              by_cases hcb : h.hasOnMaxRetriesExceeded
              · simp only [hcb, if_true]
                cases hM : env.onMaxRetriesExceeded with
                | ok u => simp [hM]
                | error e2 =>
                  simp only [hM]
                  refine ⟨by simp, by simp, by simp, by simp, ?_⟩
                  intro _
                  exact ⟨e2, rfl, Or.inr rfl⟩
              · simp only [hcb, if_false]
                simp
            · rw [if_neg hgt]
              cases hres : (processHook cfg env pending (a + 1) cfg.accountId s).result with
              | error he => simp [hres]
              | ok op =>
                simp only [hres]
                obtain ⟨ih1, ih2, ih3, ih4, ih5⟩ := ih (a + 1)
                  (fun t => if t = s then retries s + 1 else retries t)
                  (processHook cfg env pending (a + 1) cfg.accountId s).pending
                exact ⟨Nat.succ_le_succ ih1, ih2, ih3, ih4, ih5⟩
          · have hsrf : h.shouldRetry = false := by simpa using hsr
            simp only [runLoop, hA, hS, hh, hsrf]
            refine ⟨by simp, by simp, by simp, by simp, ?_⟩
            intro _
            exact ⟨e, rfl, Or.inl (by simp [shouldRetryB, hS, hh, hsrf])⟩

/-- C2 (amended): `failed = false` is written if and only if the call
succeeds; the global-ceiling exit writes `failed = true`; and the only
fatal exits that leave the account untouched are errors whose status has no
retry-willing hook and errors thrown by `onMaxRetriesExceeded` itself —
other fatal exits (exhaustion with a completing callback, handler failure,
global ceiling) write `failed = true` (index.ts lines 231, 238-239,
249-251, 261-263, 278). -/
theorem c2_account_state (cfg : Config) (env : Env) :
    (∀ v, (makeRequestWithRetry cfg env).result = .ok v →
      (makeRequestWithRetry cfg env).lastFailedWrite = some false) ∧
    ((makeRequestWithRetry cfg env).lastFailedWrite = some false →
      ∃ v, (makeRequestWithRetry cfg env).result = .ok v) ∧
    ((makeRequestWithRetry cfg env).result = .error .exceededMaxAttempts →
      (makeRequestWithRetry cfg env).lastFailedWrite = some true) ∧
    ((makeRequestWithRetry cfg env).lastFailedWrite = none →
      ∃ e, (makeRequestWithRetry cfg env).result = .error (.err e) ∧
        (shouldRetryB cfg e.status = false ∨ env.onMaxRetriesExceeded = .error e)) := by
  obtain ⟨h1, h2, h3, h4, h5⟩ :=
    runLoop_invariants cfg env cfg.maxAttempts 0 (fun _ => 0) []
  exact ⟨h3, h4, h2, h5⟩

/-- C2 counterexample: a single 500 failure with no hooks configured is a
fatal exit, yet `setLastRequestFailed` is never called — the claim that
every fatal exit sets `lastFailed = true` is false on the code. -/
theorem c2_counterexample :
    (makeRequestWithRetry cfgC2 envC2fail).result = .error (.err ⟨some 500, 1⟩) ∧
    (makeRequestWithRetry cfgC2 envC2fail).lastFailedWrite = none :=
  ⟨rfl, rfl⟩

/-- C2 witness: on success the account is marked not-failed. -/
theorem c2_account_state_witness :
    (makeRequestWithRetry cfgC2 envC2ok).lastFailedWrite = some false :=
  (c2_account_state cfgC2 envC2ok).1 (.obj 1) rfl

/-- C7: the attempt loop performs at most `maxAttempts` physical attempts
(termination is by construction: the loop consumes one unit of fuel per
iteration, with `fuel = maxAttempts`); when the ceiling exit is taken the
account is marked failed and the distinct `Exceeded maximum attempts`
error — a different constructor from any rethrown attempt error — is
thrown (index.ts lines 34-35, 207-209, 276-279). -/
theorem c7_global_attempts_ceiling (cfg : Config) (env : Env) :
    (makeRequestWithRetry cfg env).attempts ≤ cfg.maxAttempts ∧
    ((makeRequestWithRetry cfg env).result = .error .exceededMaxAttempts →
      (makeRequestWithRetry cfg env).lastFailedWrite = some true) ∧
    (∀ e : ErrInfo, CallError.exceededMaxAttempts ≠ CallError.err e) := by
  obtain ⟨h1, h2, _, _, _⟩ :=
    runLoop_invariants cfg env cfg.maxAttempts 0 (fun _ => 0) []
  exact ⟨h1, h2, fun e hce => CallError.noConfusion hce⟩

/-- C7 witness: with `maxAttempts = 2` and a hook whose budget is never
exhausted, the run stops after at most 2 attempts with the ceiling error
and the account marked failed. -/
theorem c7_global_attempts_ceiling_witness :
    (makeRequestWithRetry cfgC7 envC7).attempts ≤ 2 ∧
    (makeRequestWithRetry cfgC7 envC7).lastFailedWrite = some true :=
  ⟨(c7_global_attempts_ceiling cfgC7 envC7).1,
   (c7_global_attempts_ceiling cfgC7 envC7).2.1 rfl⟩

theorem mapLookup_mapInsert_self (m : PendingMap) (k : String) (v : HandlerOutcome) :
    mapLookup (mapInsert m k v) k = some v := by
  simp [mapInsert, mapLookup]

theorem phCatch_pending (h : Hook) (env : Env) (pending : PendingMap) (e : ErrInfo) (inv : Nat) :
    (phCatch h env pending e inv).pending = pending := by
  cases hc : h.hasOnHandlerError <;> cases hE : env.onHandlerError <;>
    simp [phCatch, hc, hE]

theorem phCatch_handlerInvocations (h : Hook) (env : Env) (pending : PendingMap)
    (e : ErrInfo) (inv : Nat) :
    (phCatch h env pending e inv).handlerInvocations = inv := by
  cases hc : h.hasOnHandlerError <;> cases hE : env.onHandlerError <;>
    simp [phCatch, hc, hE]

/-- C4 (amended): for a hook with `preventConcurrentCalls = true`, a
`processHook` invocation with no stored pending promise invokes the handler
once and stores the promise, while an invocation finding a stored promise
never invokes the handler; a promise that fulfills has its entry removed,
but a promise that rejects leaves its entry in the map (`delete` is skipped
because `await` throws first), so later recovery cycles for the same key
keep awaiting the stale rejection instead of re-invoking the handler
(HookManager.ts lines 37-49). -/
theorem c4_pending_map (cfg : Config) (env : Env) (pending : PendingMap) (k : Nat)
    (acc : String) (s : StatusCode) (h : Hook)
    (hh : cfg.hooks s = some h) (hhand : h.hasHandler = true)
    (hpc : h.preventConcurrentCalls = true) :
    (mapLookup pending (hookKey acc s) = none →
      (processHook cfg env pending k acc s).handlerInvocations = 1) ∧
    (∀ out, mapLookup pending (hookKey acc s) = some out →
      (processHook cfg env pending k acc s).handlerInvocations = 0) ∧
    (∀ p, mapLookup pending (hookKey acc s) = none → env.handlerOutcome k = .ok p →
      (processHook cfg env pending k acc s).result = .ok (some p) ∧
      mapLookup (processHook cfg env pending k acc s).pending (hookKey acc s) = none) ∧
    (∀ p, mapLookup pending (hookKey acc s) = some (.ok p) →
      (processHook cfg env pending k acc s).result = .ok (some p) ∧
      mapLookup (processHook cfg env pending k acc s).pending (hookKey acc s) = none) ∧
    (∀ e, mapLookup pending (hookKey acc s) = none → env.handlerOutcome k = .error e →
      mapLookup (processHook cfg env pending k acc s).pending (hookKey acc s) =
        some (.error e)) ∧
    (∀ e, mapLookup pending (hookKey acc s) = some (.error e) →
      mapLookup (processHook cfg env pending k acc s).pending (hookKey acc s) =
        some (.error e)) := by
  refine ⟨?_, ?_, ?_, ?_, ?_, ?_⟩
  · intro hpend
    cases hout : env.handlerOutcome k with
    | ok p => simp [processHook, hh, hhand, hpc, hpend, hout]
    | error e =>
      simp [processHook, hh, hhand, hpc, hpend, hout, phCatch_handlerInvocations]
  · intro out hpend
    cases out with
    | ok p => simp [processHook, hh, hhand, hpc, hpend]
    | error e => simp [processHook, hh, hhand, hpc, hpend, phCatch_handlerInvocations]
  · intro p hpend hout
    refine ⟨by simp [processHook, hh, hhand, hpc, hpend, hout], ?_⟩
    simp only [processHook, hh, hhand, hpc, hpend, hout]
    simp [mapLookup_mapErase_self]
  · intro p hpend
    refine ⟨by simp [processHook, hh, hhand, hpc, hpend], ?_⟩
    simp only [processHook, hh, hhand, hpc, hpend]
    simp [mapLookup_mapErase_self]
  · intro e hpend hout
    simp only [processHook, hh, hhand, hpc, hpend, hout]
    simp [phCatch_pending, mapLookup_mapInsert_self]
  · intro e hpend
    simp only [processHook, hh, hhand, hpc, hpend]
    simp [phCatch_pending, hpend]

/-- C4 counterexample: with an empty pending map and a rejecting handler,
the settled (rejected) pending promise is NOT removed — its entry is still
stored under the key after `processHook` returns — and a later independent
recovery cycle for the same key finds it, invokes the handler zero times,
and receives the stale rejection; the claim that the entry is removed
whenever the promise settles (fulfilled or rejected) is false on the code. -/
theorem c4_counterexample :
    mapLookup (processHook cfgC4 envC4fail [] 1 "acc" 401).pending (hookKey "acc" 401) =
      some (.error ⟨some 401, 5⟩) ∧
    (processHook cfgC4 envC4fail (processHook cfgC4 envC4fail [] 1 "acc" 401).pending
      2 "acc" 401).handlerInvocations = 0 ∧
    (processHook cfgC4 envC4fail (processHook cfgC4 envC4fail [] 1 "acc" 401).pending
      2 "acc" 401).result = .error ⟨some 401, 5⟩ :=
  ⟨rfl, rfl, rfl⟩

/-- C4 witness: first caller with an empty map invokes the handler once;
on fulfilment the entry is removed. -/
theorem c4_pending_map_witness :
    (processHook cfgC4 envC4ok [] 1 "acc" 401).handlerInvocations = 1 ∧
    (processHook cfgC4 envC4ok [] 1 "acc" 401).result = .ok (some [("h", "v")]) ∧
    mapLookup (processHook cfgC4 envC4ok [] 1 "acc" 401).pending (hookKey "acc" 401) = none := by
  obtain ⟨w1, _, w3, _, _, _⟩ :=
    c4_pending_map cfgC4 envC4ok [] 1 "acc" 401 hookC4 rfl rfl rfl
  obtain ⟨w3a, w3b⟩ := w3 [("h", "v")] rfl rfl
  exact ⟨w1 rfl, w3a, w3b⟩

/-- C5 (amended): the best-effort callbacks are NOT protected: when
`onMaxRetriesExceeded` (resp. `onHandlerError`) completes normally the
primary error — the last attempt's error on exhaustion, the handler's
rejection on handler failure — is rethrown, but when the callback itself
throws, its error escapes uncaught and replaces the primary error
(HookManager.ts lines 54-62 and 68-73, index.ts lines 247-252). -/
theorem c5_best_effort_callbacks :
    (∀ (cfg : Config) (env : Env) (s : StatusCode) (h : Hook) (e1 : ErrInfo),
      cfg.hooks s = some h → h.shouldRetry = true → h.maxRetries = some 0 →
      h.hasOnMaxRetriesExceeded = true → 1 ≤ cfg.maxAttempts →
      env.attemptOutcome 1 = .failure e1 → e1.status = some s →
      (makeRequestWithRetry cfg env).result =
        .error (.err (match env.onMaxRetriesExceeded with
          | .ok _ => e1
          | .error e2 => e2))) ∧
    (∀ (cfg : Config) (env : Env) (pending : PendingMap) (k : Nat) (acc : String)
        (s : StatusCode) (h : Hook) (e : ErrInfo),
      cfg.hooks s = some h → h.hasHandler = true → h.preventConcurrentCalls = false →
      h.hasOnHandlerError = true → env.handlerOutcome k = .error e →
      (processHook cfg env pending k acc s).result =
        .error (match env.onHandlerError with
          | .ok _ => e
          | .error e2 => e2)) := by
  constructor
  · intro cfg env s h e1 hh hsr hmr hcb hmax hA hS
    unfold makeRequestWithRetry
    obtain ⟨f, hf⟩ : ∃ f, cfg.maxAttempts = f + 1 := ⟨cfg.maxAttempts - 1, by omega⟩
    rw [hf]
    simp only [runLoop, Nat.zero_add, hA, hS, hh, hsr, if_true]
    rw [if_pos (by rw [hmr]; simp)]
    simp only [hcb, if_true]
    cases hM : env.onMaxRetriesExceeded <;> simp [hM]
  · intro cfg env pending k acc s h e hh hhand hpc hce hout
    simp only [processHook, hh, hhand, if_true, hpc, hout]
    simp only [phCatch, hce, if_true]
    cases hE : env.onHandlerError <;> simp [hE]

/-- C5 counterexample: with `maxRetries = 0`, the attempt failing with
error tag 1 and `onMaxRetriesExceeded` throwing error tag 99, the call
rejects with the callback's error, not the original attempt error — so the
claim that callback errors are ignored and never replace the primary error
is false on the code. -/
theorem c5_counterexample :
    (makeRequestWithRetry cfgC5 envC5throw).result = .error (.err ⟨none, 99⟩) ∧
    (⟨none, 99⟩ : ErrInfo) ≠ ⟨some 500, 1⟩ :=
  ⟨rfl, by decide⟩

/-- C5 witness: with callbacks completing normally, exhaustion rethrows the
attempt error and handler failure rethrows the handler's rejection. -/
theorem c5_best_effort_callbacks_witness :
    (makeRequestWithRetry cfgC5 envC5ok).result = .error (.err ⟨some 500, 1⟩) ∧
    (processHook cfgC5 envC5ok [] 1 "acc" 500).result = .error ⟨some 500, 7⟩ :=
  ⟨c5_best_effort_callbacks.1 cfgC5 envC5ok 500 hookC5 ⟨some 500, 1⟩
      rfl rfl rfl rfl (by decide) rfl rfl,
   c5_best_effort_callbacks.2 cfgC5 envC5ok [] 1 "acc" 500 hookC5 ⟨some 500, 7⟩
      rfl rfl rfl rfl rfl⟩

/-- C6: at setup the default 401 hook — `shouldRetry`, `useRetryDelay` and
`preventConcurrentCalls` all true, `maxRetries = 1`, with a handler that
awaits the auth provider's `refresh` and resolves with the empty patch — is
installed iff the provider has a `refresh` function and the hooks map has
no 401 entry; an explicit `null` entry suppresses the default and installs
nothing for 401, and a user-supplied 401 hook wins (index.ts lines 69-89
and 100-125). -/
theorem c6_default_auth_hook :
    (∀ hooks : StatusCode → Option (Option Hook), hooks 401 = none →
      setupFinalHooks true hooks 401 = some defaultAuthRefreshHook) ∧
    (∀ (hasRefresh : Bool) (hooks : StatusCode → Option (Option Hook)),
      hooks 401 = some none → setupFinalHooks hasRefresh hooks 401 = none) ∧
    (∀ hooks : StatusCode → Option (Option Hook), hooks 401 = none →
      setupFinalHooks false hooks 401 = none) ∧
    (∀ (hasRefresh : Bool) (hooks : StatusCode → Option (Option Hook)) (hk : Hook),
      hooks 401 = some (some hk) → setupFinalHooks hasRefresh hooks 401 = some hk) ∧
    defaultAuthRefreshHook.shouldRetry = true ∧
    defaultAuthRefreshHook.useRetryDelay = true ∧
    defaultAuthRefreshHook.preventConcurrentCalls = true ∧
    defaultAuthRefreshHook.maxRetries = some 1 ∧
    defaultAuthRefreshHook.hasHandler = true ∧
    defaultAuthRefreshHandlerBody true (.ok ()) = .ok [] ∧
    (∀ e, defaultAuthRefreshHandlerBody true (.error e) = .error e) := by
  refine ⟨?_, ?_, ?_, ?_, rfl, rfl, rfl, rfl, rfl, rfl, fun e => rfl⟩
  · intro hooks h401; simp [setupFinalHooks, h401]
  · intro hasRefresh hooks h401; simp [setupFinalHooks, h401]
  · intro hooks h401; simp [setupFinalHooks, h401]
  · intro hasRefresh hooks hk h401; simp [setupFinalHooks, h401]

/-- C6 witness: with `refresh` available, an empty hooks map installs the
default 401 hook; an explicit `null` 401 entry installs nothing; without
`refresh` nothing is installed. -/
theorem c6_default_auth_hook_witness :
    setupFinalHooks true hooksC6none 401 = some defaultAuthRefreshHook ∧
    setupFinalHooks true hooksC6null 401 = none ∧
    setupFinalHooks false hooksC6none 401 = none :=
  ⟨c6_default_auth_hook.1 hooksC6none rfl,
   c6_default_auth_hook.2.1 true hooksC6null rfl,
   c6_default_auth_hook.2.2.1 hooksC6none rfl⟩

/-- C8 (amended): a `Retry-After` header parsing to a NONZERO numeric value
`n` makes the default delay strategy return exactly `n * 1000` ms,
independent of the jitter draw (no jitter applied) and overriding the
exponential formula; a numeric value of `0` is falsy in the
`if (retryAfter)` test and falls through to jittered exponential backoff
(RetryManager.ts lines 13-24 and 48-68). -/
theorem c8_retry_after_numeric (n : Int) (hn : n ≠ 0) (attempt : Nat) (now : Int)
    (rand : Nat) :
    defaultDelayStrategyCalculate attempt (.numeric n) now rand = n * 1000 := by
  simp only [defaultDelayStrategyCalculate, getRetryAfterValue]
  rw [if_neg (mul_ne_zero hn (by norm_num))]

/-- C8 counterexample: a numeric `Retry-After` of `0` does NOT yield
`0 * 1000` — the zero value is discarded as falsy and the jitter draw
(here 7) is returned instead, so the claim that every numeric value `n`
yields exactly `n * 1000` is false on the code. -/
theorem c8_counterexample :
    defaultDelayStrategyCalculate 1 (.numeric 0) 0 7 ≠ 0 * 1000 := by decide

/-- C8 witness: `Retry-After: 30` yields exactly 30000 ms regardless of the
random draw. -/
theorem c8_retry_after_numeric_witness :
    defaultDelayStrategyCalculate 1 (.numeric 30) 0 123 = 30 * 1000 :=
  c8_retry_after_numeric 30 (by decide) 1 0 123

/-- C9: evaluation at the failing input.  Two calls identical except for
their query-param contents produce the SAME cache key (the serialized key
records only the presence of `queryParams`, because `JSON.stringify` on a
`URLSearchParams` instance yields `{}`), and the second call is served the
first call's cached response without invoking the transport — contradicting
the claim that calls differing in `queryParams` never share a cache entry
(types.ts lines 116-126, index.ts lines 166-177). -/
theorem c9_query_params_key_collision :
    getRequestKey pC9a = getRequestKey pC9b ∧
    pC9a.queryParams ≠ pC9b.queryParams ∧
    (callOnce (callOnce [] pC9a 20000 0 (.ok (.obj 1))).cache pC9b 20000 5
      (.ok (.obj 2))).transportInvoked = false ∧
    (callOnce (callOnce [] pC9a 20000 0 (.ok (.obj 1))).cache pC9b 20000 5
      (.ok (.obj 2))).result = .ok (.obj 1) :=
  ⟨rfl, by decide, rfl, rfl⟩

/-- A call that finds no truthy cached value always reaches the transport. -/
theorem callOnce_invoked_of_falsy (cache : Cache) (p : CallParams) (svc now : Nat)
    (t : Except CallError JsValue)
    (hmiss : (getFromCache cache p svc now).truthy = false) :
    (callOnce cache p svc now t).transportInvoked = true := by
  simp only [callOnce, hmiss, Bool.false_eq_true, if_false]
  cases t <;> rfl

/-- C10: a call succeeding with a falsy value (e.g. `null` from a non-JSON
body, HttpClient.ts lines 124-138) invokes the transport, writes the value
into the cache — yet an identical call inside the ttl window fails the
`if (cachedData)` truthiness test and invokes the transport again, making
caching ineffective for falsy results (index.ts lines 167-177, types.ts
lines 90-100). -/
theorem c10_falsy_result_not_served (cache : Cache) (p : CallParams) (v : JsValue)
    (svc now now2 : Nat) (t : Except CallError JsValue)
    (hv : v.truthy = false)
    (hmiss : (getFromCache cache p svc now).truthy = false)
    (hwin : now ≤ now2 ∧ now2 - now < p.cacheTime.getD svc) :
    (callOnce cache p svc now (.ok v)).transportInvoked = true ∧
    cacheLookup (callOnce cache p svc now (.ok v)).cache (getRequestKey p) =
      some ⟨v, now⟩ ∧
    (callOnce (callOnce cache p svc now (.ok v)).cache p svc now2 t).transportInvoked
      = true := by
  have hcache : (callOnce cache p svc now (.ok v)).cache = saveToCache cache p v now := by
    simp [callOnce, hmiss]
  have hmiss2 : (getFromCache (saveToCache cache p v now) p svc now2).truthy = false := by
    simp only [getFromCache, saveToCache, cacheLookup_cacheInsert_self]
    split
    · exact hv
    · rfl
  refine ⟨callOnce_invoked_of_falsy cache p svc now (.ok v) hmiss, ?_, ?_⟩
  · rw [hcache]
    exact cacheLookup_cacheInsert_self cache (getRequestKey p) ⟨v, now⟩
  · rw [hcache]
    exact callOnce_invoked_of_falsy (saveToCache cache p v now) p svc now2 t hmiss2

/-- C10 witness: a `null` result is cached at time 0 but an identical call
at time 5 (inside the 20000 ms ttl) hits the transport again. -/
theorem c10_falsy_result_not_served_witness :
    (callOnce [] pC10 20000 0 (.ok .jsNull)).transportInvoked = true ∧
    cacheLookup (callOnce [] pC10 20000 0 (.ok .jsNull)).cache (getRequestKey pC10) =
      some ⟨.jsNull, 0⟩ ∧
    (callOnce (callOnce [] pC10 20000 0 (.ok .jsNull)).cache pC10 20000 5
      (.ok (.obj 2))).transportInvoked = true :=
  c10_falsy_result_not_served [] pC10 .jsNull 20000 0 5 (.ok (.obj 2))
    rfl rfl (by decide)

end ApiService
